import Mathlib

/-!
# Verification of the agentic tool-calling engine of `byronwade/ai-chatbot`

Shallow embedding of the repository's orchestration code:

* the NDJSON stream transform of `SEOAgent.chat`'s hand-rolled `doStream`
  (the `TransformStream` in the streaming agent variant),
* the tool-and-fallback `chat()` of `src/lib/ai/agent.ts` (first variant),
* the `analyzeWebsite` tool handler and top-level catch of `src/scripts/node.ts`,
* the message filter of the multi-provider `chat()` variant,
* the model table and `getModel` of `src/lib/ai/models.ts`,
* a step-loop model written from the specification (the loop itself lives in
  the external `ai` SDK's `generateText`; only its callers are in the repo).

JavaScript exceptions are modelled by `Except String` carrying the error
message; nondeterministic `crypto.randomUUID()` draws are modelled by an
injected supply `Nat → String` consumed left to right.
-/

namespace AIChatbot

/-! ## JSON values and `JSON.parse`

The streaming transform calls `JSON.parse(line)` on every line of the
backend's NDJSON output.  `Json` models the parsed values; the parser below
covers the JSON grammar exchanged with the Ollama daemon (objects, arrays,
strings with the common escapes, integer numbers, literals), requiring the
whole input to be consumed, exactly as `JSON.parse` does. -/

inductive Json where
  | null : Json
  | bool (b : Bool) : Json
  | num (n : Int) : Json
  | str (s : String) : Json
  | arr (elems : List Json) : Json
  | obj (fields : List (String × Json)) : Json

/-- JSON.parse keeps the last occurrence of a duplicated object key. -/
def lookupLast (key : String) : List (String × Json) → Option Json
  | [] => none
  | (k, v) :: rest =>
    match lookupLast key rest with
    | some r => some r
    | none => if k = key then some v else none

/-- Property access `j.f` (yields `undefined`, i.e. `none`, off objects). -/
def Json.getField : Json → String → Option Json
  | .obj fields, key => lookupLast key fields
  | _, _ => none

/-- JavaScript truthiness of a parsed JSON value. -/
def Json.truthy : Json → Bool
  | .null => false
  | .bool b => b
  | .num n => n != 0
  | .str s => s != ""
  | .arr _ => true
  | .obj _ => true

/-- Truthiness of a possibly-`undefined` value (`undefined` is falsy). -/
def truthyOpt : Option Json → Bool
  | none => false
  | some j => j.truthy

def isJsonWs (c : Char) : Bool :=
  c = ' ' || c = '\t' || c = '\n' || c = '\r'

def skipWs : List Char → List Char
  | [] => []
  | c :: cs => if isJsonWs c then skipWs cs else c :: cs

/-- Decoding of the common JSON string escapes (`\uXXXX` is outside the
subset the backend emits and is rejected). -/
def escCode (e : Char) : Option Char :=
  if e = '"' then some '"'
  else if e = '\\' then some '\\'
  else if e = '/' then some '/'
  else if e = 'b' then some (Char.ofNat 8)
  else if e = 'f' then some (Char.ofNat 12)
  else if e = 'n' then some '\n'
  else if e = 'r' then some '\r'
  else if e = 't' then some '\t'
  else none

/-- Parse a JSON string body (the opening quote already consumed). -/
def parseStringBody : List Char → Option (String × List Char)
  | [] => none
  | '"' :: rest => some ("", rest)
  | '\\' :: e :: rest =>
    match escCode e with
    | some d =>
      match parseStringBody rest with
      | some (s, r) => some (String.mk (d :: s.data), r)
      | none => none
    | none => none
  | '\\' :: [] => none
  | c :: rest =>
    if c = '"' ∨ c = '\\' then none
    else
      match parseStringBody rest with
      | some (s, r) => some (String.mk (c :: s.data), r)
      | none => none

def parseDigits : List Char → Nat → Nat → Option (Nat × List Char)
  | [], 0, _ => none
  | [], _ + 1, acc => some (acc, [])
  | c :: cs, seen, acc =>
    if c.isDigit then parseDigits cs (seen + 1) (acc * 10 + (c.toNat - 48))
    else match seen with
      | 0 => none
      | _ + 1 => some (acc, c :: cs)

/-- Parse a JSON number.  Integer subset: fractions and exponents do not
occur on this wire format and are rejected. -/
def parseNumber : List Char → Option (Json × List Char)
  | '-' :: cs =>
    match parseDigits cs 0 0 with
    | some (n, rest) =>
      match rest with
      | '.' :: _ => none
      | 'e' :: _ => none
      | 'E' :: _ => none
      | _ => some (.num (-(n : Int)), rest)
    | none => none
  | cs =>
    match parseDigits cs 0 0 with
    | some (n, rest) =>
      match rest with
      | '.' :: _ => none
      | 'e' :: _ => none
      | 'E' :: _ => none
      | _ => some (.num (n : Int), rest)
    | none => none

mutual

def parseVal : Nat → List Char → Option (Json × List Char)
  | 0, _ => none
  | fuel + 1, cs =>
    match skipWs cs with
    | 't' :: 'r' :: 'u' :: 'e' :: rest => some (.bool true, rest)
    | 'f' :: 'a' :: 'l' :: 's' :: 'e' :: rest => some (.bool false, rest)
    | 'n' :: 'u' :: 'l' :: 'l' :: rest => some (.null, rest)
    | '"' :: rest =>
      match parseStringBody rest with
      | some (s, r) => some (.str s, r)
      | none => none
    | '[' :: rest =>
      match skipWs rest with
      | ']' :: r => some (.arr [], r)
      | other =>
        match parseElems fuel other with
        | some (xs, r) => some (.arr xs, r)
        | none => none
    | '\x7b' :: rest =>
      match skipWs rest with
      | '\x7d' :: r => some (.obj [], r)
      | other =>
        match parseFields fuel other with
        | some (fs, r) => some (.obj fs, r)
        | none => none
    | other => parseNumber other

def parseElems : Nat → List Char → Option (List Json × List Char)
  | 0, _ => none
  | fuel + 1, cs =>
    match parseVal fuel cs with
    | some (v, rest) =>
      match skipWs rest with
      | ',' :: r =>
        match parseElems fuel r with
        | some (xs, r2) => some (v :: xs, r2)
        | none => none
      | ']' :: r => some ([v], r)
      | _ => none
    | none => none

def parseFields : Nat → List Char → Option (List (String × Json) × List Char)
  | 0, _ => none
  | fuel + 1, cs =>
    match skipWs cs with
    | '"' :: r0 =>
      match parseStringBody r0 with
      | some (k, r1) =>
        match skipWs r1 with
        | ':' :: r2 =>
          match parseVal fuel r2 with
          | some (v, r3) =>
            match skipWs r3 with
            | ',' :: r4 =>
              match parseFields fuel r4 with
              | some (fs, r5) => some ((k, v) :: fs, r5)
              | none => none
            | '\x7d' :: r4 => some ([(k, v)], r4)
            | _ => none
          | none => none
        | _ => none
      | none => none
    | _ => none

end

/-- `JSON.parse` on one line: parse a value and insist the remainder is
whitespace, otherwise the parse throws (modelled as `none`). -/
def jsonParseChars (cs : List Char) : Option Json :=
  match parseVal (cs.length + 1) cs with
  | some (j, rest) => if skipWs rest = [] then some j else none
  | none => none

def jsonParse (s : String) : Option Json :=
  jsonParseChars s.data

/-! ## The NDJSON stream transform

Embedding of the `TransformStream` inside `SEOAgent.chat`'s `doStream`
(streaming agent variant):

```
const text = new TextDecoder().decode(chunk);
const lines = text.split('\n').filter(Boolean);
for (const line of lines) {
  const json = JSON.parse(line);
  if (json.message?.content) { enqueue {type: 'text-delta', ...} }
  if (json.message?.function_call) {
    const toolCallId = crypto.randomUUID();
    enqueue {type: 'tool-call-delta', toolCallId,
             toolName: ...function_call.name,
             argsTextDelta: ...function_call.arguments}
  }
}
```
wrapped per chunk in `try { ... } catch (e) { logWithTimestamp(..., e) }`.
Chunks are modelled as decoded strings, the UUID generator as an injected
supply `uuid : Nat → String` consumed in order.  The per-chunk `catch` is
modelled by a `Bool` flag (an error was caught and logged for that chunk);
the events enqueued before the failing line remain enqueued. -/

/-- The `LanguageModelV1StreamPart` variants the transform deals in.
`toolCall` is the library's completion variant (`type: 'tool-call'`);
the transform never constructs it.  Field payloads are raw JSON values,
mirroring the untyped JavaScript field accesses. -/
inductive StreamPart where
  | textDelta (delta : Json) : StreamPart
  | toolCallDelta (toolCallId : String) (toolName : Option Json)
      (argsTextDelta : Option Json) : StreamPart
  | toolCall (toolCallId : String) (toolName : Option Json)
      (args : Option Json) : StreamPart

/-- Events enqueued for one parsed NDJSON record, together with the number
of UUIDs consumed so far. -/
def lineEvents (uuid : Nat → String) (k : Nat) (j : Json) :
    List StreamPart × Nat :=
  let msg := j.getField "message"
  let textEvs : List StreamPart :=
    match msg with
    | some m =>
      match m.getField "content" with
      | some v => if v.truthy then [.textDelta v] else []
      | none => []
    | none => []
  match msg with
  | some m =>
    match m.getField "function_call" with
    | some fc =>
      if fc.truthy then
        (textEvs ++ [.toolCallDelta (uuid k) (fc.getField "name")
          (fc.getField "arguments")], k + 1)
      else (textEvs, k)
    | none => (textEvs, k)
  | none => (textEvs, k)

/-- Process the complete lines of one chunk in order.  A `JSON.parse`
failure throws, so the remaining lines of the chunk are skipped; the third
component records that the chunk-level `catch` fired. -/
def processLines (uuid : Nat → String) : Nat → List (List Char) →
    List StreamPart × Nat × Bool
  | k, [] => ([], k, false)
  | k, l :: ls =>
    match jsonParseChars l with
    | none => ([], k, true)
    | some j =>
      let ek := lineEvents uuid k j
      let rest := processLines uuid ek.2 ls
      (ek.1 ++ rest.1, rest.2)

/-- `text.split('\n')`: split on every newline, keeping empty segments. -/
def splitNl : List Char → List (List Char)
  | [] => [[]]
  | '\n' :: cs => [] :: splitNl cs
  | c :: cs =>
    match splitNl cs with
    | l :: ls => (c :: l) :: ls
    | [] => [[c]]

/-- `text.split('\n').filter(Boolean)` on the decoded chunk. -/
def chunkLines (chunk : String) : List (List Char) :=
  (splitNl chunk.data).filter (fun l => l ≠ [])

def processChunk (uuid : Nat → String) (k : Nat) (chunk : String) :
    List StreamPart × Nat × Bool :=
  processLines uuid k (chunkLines chunk)

/-- Run the transform over a whole sequence of incoming chunks.  Each chunk
is transformed independently — no line buffer survives a chunk boundary.
Returns the enqueued events, the number of UUIDs consumed, and how many
chunks had their error caught (and logged) by the `catch`. -/
def transformAll (uuid : Nat → String) : Nat → List String →
    List StreamPart × Nat × Nat
  | k, [] => ([], k, 0)
  | k, c :: cs =>
    let ekb := processChunk uuid k c
    let rest := transformAll uuid ekb.2.1 cs
    (ekb.1 ++ rest.1, rest.2.1, (if ekb.2.2 then 1 else 0) + rest.2.2)

/-- The event sequence the transform enqueues for the given raw chunks. -/
def transformEvents (uuid : Nat → String) (chunks : List String) :
    List StreamPart :=
  (transformAll uuid 0 chunks).1

/-- How many chunk-level transform errors were caught and logged. -/
def transformCaught (uuid : Nat → String) (chunks : List String) : Nat :=
  (transformAll uuid 0 chunks).2.2

/-! ## `chat()` with the single fallback (`src/lib/ai/agent.ts`, first variant)

```
try {
  const stream = await generateText({ model, messages, tools, toolChoice: 'auto',
                                      maxSteps: 25, ... });
  return stream;
} catch (error) {
  console.error('Error in chat:', error);
  const fallbackResult = await generateText({ model, messages, temperature: 0.7 });
  return fallbackResult;
}
```

The two `generateText` invocations are modelled by their outcomes
(`Except String R`, errors carried as messages); the observable request
shape of each backend call is recorded in a trace of `GenCall`s.  Note that
an exception thrown by the fallback `generateText` is *not* caught: it
escapes the `catch` block to the caller, and the original error — already
consumed by the `catch` — is lost except for the `console.error` log. -/

/-- The request shape of one `generateText` call: whether the `tools`
option was passed and whether a streaming API was used (both calls use the
non-streaming `generateText`; the fallback also drops the tools). -/
structure GenCall where
  toolsEnabled : Bool
  streaming : Bool
deriving DecidableEq

/-- The primary tool-enabled call (`tools`, `toolChoice: 'auto'`, `maxSteps: 25`). -/
def primaryCall : GenCall := ⟨true, false⟩

/-- The reduced-capability fallback call (no `tools`, plain `generateText`). -/
def reducedCall : GenCall := ⟨false, false⟩

/-- `SEOAgent.chat` of the fallback variant: the trace of backend calls
made, and the outcome returned to (or the exception escaping to) the caller. -/
def chatWithFallback {R : Type} (primary fallback : Except String R) :
    List GenCall × Except String R :=
  match primary with
  | .ok r => ([primaryCall], .ok r)
  | .error _ =>
    match fallback with
    | .ok r => ([primaryCall, reducedCall], .ok r)
    | .error e2 => ([primaryCall, reducedCall], .error e2)

/-! ## The `analyzeWebsite` tool handler of `src/scripts/node.ts`

```
execute: async ({ url, depth = 0 }) => {
  streamOutput(`\nAnalyzing website: ${url} (depth ${depth})\n`);
  try {
    const result = await scraper.scrapeWebsite(url, 'AI Assistant', depth);
    streamOutput(`✓ Analysis complete\n`);
    streamOutput(`  SEO Score: ${result.seoAnalysis?.score || 'N/A'}/100\n`);
    return JSON.stringify(result, null, 2);
  } catch (error) {
    const errorMessage = error instanceof Error ? error.message : 'Unknown error occurred';
    streamOutput(`✗ Analysis failed: ${errorMessage}\n`);
    throw error;          // the handler RETHROWS — the error is not absorbed
  }
}
```
and `runAgent`'s top-level handler:
```
catch (error) { console.error('Error:', error);
                return 'Sorry, there was an error processing your request.'; }
```
The scraper call is modelled by its outcome; thrown errors are modelled by
their message string. -/

/-- Template-literal coercion `${v}` of a parsed JSON value. -/
def Json.display : Json → String
  | .null => "null"
  | .bool true => "true"
  | .bool false => "false"
  | .num n => toString n
  | .str s => s
  | .arr xs => String.intercalate "," (xs.attach.map (fun x => x.1.display))
  | .obj _ => "[object Object]"
termination_by j => sizeOf j
decreasing_by
  simp_wf
  have h := List.sizeOf_lt_of_mem x.2
  omega

/-- `JSON.stringify` escaping of one character. -/
def jsEscape (c : Char) : String :=
  if c = '"' then "\\\""
  else if c = '\\' then "\\\\"
  else if c = '\n' then "\\n"
  else if c = '\t' then "\\t"
  else if c = '\r' then "\\r"
  else if c = Char.ofNat 8 then "\\b"
  else if c = Char.ofNat 12 then "\\f"
  else String.mk [c]

def jsonQuote (s : String) : String :=
  "\"" ++ s.data.foldl (fun acc c => acc ++ jsEscape c) "" ++ "\""

/-- `JSON.stringify` (the 2-space indentation of the `(result, null, 2)`
call is not reproduced; no claim inspects the rendering). -/
def Json.stringify : Json → String
  | .null => "null"
  | .bool true => "true"
  | .bool false => "false"
  | .num n => toString n
  | .str s => jsonQuote s
  | .arr xs =>
    "[" ++ String.intercalate "," (xs.attach.map (fun x => x.1.stringify)) ++ "]"
  | .obj fs =>
    "\x7b" ++ String.intercalate ","
      (fs.attach.map (fun f => jsonQuote f.1.1 ++ ":" ++ f.1.2.stringify)) ++ "\x7d"
termination_by j => sizeOf j
decreasing_by
  · simp_wf
    have h := List.sizeOf_lt_of_mem x.2
    omega
  · simp_wf
    obtain ⟨⟨k, v⟩, hf⟩ := f
    have h := List.sizeOf_lt_of_mem hf
    simp only [Prod.mk.sizeOf_spec] at h
    dsimp only
    omega

/-- `${result.seoAnalysis?.score || 'N/A'}`. -/
def seoScoreDisplay (result : Json) : String :=
  match result.getField "seoAnalysis" with
  | some sa =>
    match sa.getField "score" with
    | some v => if v.truthy then v.display else "N/A"
    | none => "N/A"
  | none => "N/A"

/-- The `analyzeWebsite` tool handler: the `streamOutput` lines written and
the returned value (`.ok`) or rethrown exception (`.error`). -/
def analyzeWebsiteExecute (url : String) (depth : Nat)
    (scrape : Except String Json) : List String × Except String String :=
  let pre := "\nAnalyzing website: " ++ url ++ " (depth " ++ toString depth ++ ")\n"
  match scrape with
  | .ok result =>
    ([pre, "✓ Analysis complete\n",
      "  SEO Score: " ++ seoScoreDisplay result ++ "/100\n"],
     .ok result.stringify)
  | .error e =>
    ([pre, "✗ Analysis failed: " ++ e ++ "\n"], .error e)

/-- `runAgent`'s top-level `try`/`catch`: a successful run returns the
generated text, any escaped exception becomes the fixed apology string. -/
def runAgentResult (outcome : Except String String) : String :=
  match outcome with
  | .ok text => text
  | .error _ => "Sorry, there was an error processing your request."

/-! ## The message filter of the multi-provider `chat()` variant

```
const filteredMessages = messages.filter((msg) =>
  msg.content && typeof msg.content === 'string' && msg.content.trim() !== '');
...
messages: [ { role: 'system', content: `You are an SEO expert ...` },
            ...filteredMessages ],
```
`CoreMessage.content` is a string or a structured part array (or absent on
malformed input); `MsgContent` models the three cases the filter
distinguishes. -/

/-- A `CoreMessage.content` value as the filter sees it: `undef` for
absent/null content (falsy), `str` for a string, `parts` for any truthy
non-string value such as a content-part array. -/
inductive MsgContent where
  | undef : MsgContent
  | str (s : String) : MsgContent
  | parts : MsgContent
deriving DecidableEq

structure CoreMsg where
  role : String
  content : MsgContent
deriving DecidableEq

/-- The whitespace class of `String.prototype.trim` (the common code
points: space, tab, line terminators, vertical tab, form feed, NBSP, BOM). -/
def jsWhitespace (c : Char) : Bool :=
  c = ' ' || c = '\t' || c = '\n' || c = '\r' ||
  c = Char.ofNat 11 || c = Char.ofNat 12 || c = Char.ofNat 160 ||
  c = Char.ofNat 65279

/-- `s.trim()`: strip leading and trailing whitespace. -/
def jsTrim (s : String) : String :=
  String.mk (((s.data.dropWhile jsWhitespace).reverse.dropWhile jsWhitespace).reverse)

/-- `msg.content && typeof msg.content === 'string' && msg.content.trim() !== ''`. -/
def msgKept (m : CoreMsg) : Bool :=
  match m.content with
  | .str s => (s != "") && (jsTrim s != "")
  | .undef => false
  | .parts => false

def filteredMessages (messages : List CoreMsg) : List CoreMsg :=
  messages.filter msgKept

/-- The injected system message of the multi-provider variant. -/
def seoSystemMsg : CoreMsg :=
  ⟨"system", .str "You are an SEO expert assistant. You have access to powerful tools that you must use to provide accurate information:\n\n1. ALWAYS use the analyze tool when asked about a website\n2. ALWAYS use the generateBlogPost tool when asked to write content\n3. ALWAYS use the crawlWebsite tool for deep website analysis\n4. ALWAYS use the getTechStack tool when asked about technologies\n5. NEVER make up data or statistics - only use data from tool results\n6. When a tool returns results, you MUST use those exact results in your response. Format them like this:\n\nTool Results:\n```json\n\x7btool results here\x7d\n```\n\nAnalysis:\n[Your analysis based on the tool results]\n\n7. Format your responses in a clear, structured way using markdown\n\nRemember: You must NEVER make up information. Only use data returned by the tools."⟩

/-- The message list handed to `generateText` by this variant. -/
def backendMessages (messages : List CoreMsg) : List CoreMsg :=
  seoSystemMsg :: filteredMessages messages

/-! ## Model table and `getModel` (`src/lib/ai/models.ts`) -/

inductive Provider where
  | ollama : Provider
  | openai : Provider
  | google : Provider
deriving DecidableEq

structure AIModel where
  id : String
  name : String
  apiIdentifier : String
  endpoint : String
  description : String
  provider : Provider
  supportsTools : Option Bool := none
  supportsVision : Option Bool := none
  maxTokens : Option Nat := none
deriving DecidableEq

def models : List AIModel := [
  { id := "gpt-4-turbo", name := "GPT-4 Turbo",
    apiIdentifier := "gpt-4-turbo-preview",
    endpoint := "https://api.openai.com/v1/chat/completions",
    description := "Most capable GPT-4 model, optimized for speed and cost",
    provider := .openai, supportsTools := some true, maxTokens := some 128000 },
  { id := "gpt-4", name := "GPT-4",
    apiIdentifier := "gpt-4",
    endpoint := "https://api.openai.com/v1/chat/completions",
    description := "Most capable GPT-4 model for complex tasks",
    provider := .openai, supportsTools := some true, maxTokens := some 8192 },
  { id := "gpt-3.5-turbo", name := "GPT-3.5 Turbo",
    apiIdentifier := "gpt-3.5-turbo",
    endpoint := "https://api.openai.com/v1/chat/completions",
    description := "Fast and efficient model for most tasks",
    provider := .openai, supportsTools := some true, maxTokens := some 4096 },
  { id := "gpt-4-vision", name := "GPT-4 Vision",
    apiIdentifier := "gpt-4-vision-preview",
    endpoint := "https://api.openai.com/v1/chat/completions",
    description := "GPT-4 model with vision capabilities",
    provider := .openai, supportsTools := some true,
    supportsVision := some true, maxTokens := some 128000 },
  { id := "gemini-1.5-flash", name := "Gemini 1.5 Flash",
    apiIdentifier := "gemini-1.5-flash-latest",
    endpoint := "https://generativelanguage.googleapis.com/v1beta",
    description := "Fast and efficient model optimized for quick responses and tool use",
    provider := .google, supportsTools := some true, maxTokens := some 32768 },
  { id := "gemini-1.5-pro", name := "Gemini 1.5 Pro",
    apiIdentifier := "gemini-1.5-pro-latest",
    endpoint := "https://generativelanguage.googleapis.com/v1beta",
    description := "Most capable Gemini model for complex tasks and reasoning",
    provider := .google, supportsTools := some true, maxTokens := some 32768 },
  { id := "llama3.3", name := "Llama 3.3",
    apiIdentifier := "llama3.3", endpoint := "/api/generate",
    description := "Latest Llama 3 model with 70.6B parameters, excellent for general tasks and tool use",
    provider := .ollama, supportsTools := some true, maxTokens := some 8192 },
  { id := "llama3.1", name := "Llama 3.1",
    apiIdentifier := "llama3.1", endpoint := "/api/generate",
    description := "Llama 3.1 with 8B parameters, balanced performance and tool usage",
    provider := .ollama, supportsTools := some true, maxTokens := some 8192 },
  { id := "mistral", name := "Mistral 7B",
    apiIdentifier := "mistral", endpoint := "/api/generate",
    description := "High-performance 7B model with strong reasoning and tool capabilities",
    provider := .ollama, supportsTools := some true, maxTokens := some 8192 },
  { id := "mixtral", name := "Mixtral 8x7B",
    apiIdentifier := "mixtral", endpoint := "/api/generate",
    description := "Most capable model with 47B parameters, excellent for complex tasks and tool use",
    provider := .ollama, supportsTools := some true, maxTokens := some 32768 }]

/-- `getModel`: `models.find((m) => m.id === modelId)`, throwing
`Model ${modelId} not found` when absent.  The `ModelId` annotation is a
compile-time cast in the source (`options.modelId as ModelId`), so the
lookup runs on an arbitrary string. -/
def getModel (modelId : String) : Except String AIModel :=
  match models.find? (fun m => m.id = modelId) with
  | some m => .ok m
  | none => .error ("Model " ++ modelId ++ " not found")

structure SEOAgentOptions where
  modelId : String
  chatId : String
  userId : String

structure SEOAgent where
  model : AIModel
  chatId : String
  userId : String

/-- The `SEOAgent` constructor: resolves the model via `getModel` (which
throws on an unknown id) and stores the ids.  No backend request occurs in
the constructor, so a thrown `getModel` error aborts construction before
any `generateText`/fallback call can happen. -/
def mkSEOAgent (options : SEOAgentOptions) : Except String SEOAgent :=
  match getModel options.modelId with
  | .ok m => .ok ⟨m, options.chatId, options.userId⟩
  | .error e => .error e

/-! ## The bounded step loop

**Modelled from the spec:** the generate→tool-execute loop itself —
`StepOrchestrator`, spec §4.4 — is missing from the repository sources: every
agent variant delegates it to the external `ai` SDK's `generateText`
(`maxSteps: 25` in `agent.ts`, `maxSteps: 10` in `scripts/node.ts`), and only
the callers are under `src/`.  Following the spec: each step invokes the
backend on the full history; the run is `Done` when a step completes with no
tool calls, or when `stepCount` reaches the configured maximum with tool
calls still pending, in which case `truncated = true`; otherwise the step's
tool calls are all executed (the executor is total — per-tool failures are
already absorbed into results), their results are appended to the history,
and the loop continues.  The loop is a total function: reaching the step
limit returns a `RunResult`, it never throws. -/

structure SToolCall where
  id : String
  name : String
  args : String
deriving DecidableEq

structure SToolResult where
  callId : String
  ok : Bool
  payload : String
deriving DecidableEq

inductive SRole where
  | system : SRole
  | user : SRole
  | assistant : SRole
  | tool : SRole
deriving DecidableEq

structure SMessage where
  role : SRole
  content : String
  toolCallId : Option String := none
deriving DecidableEq

/-- One backend generation: the emitted text and the completed tool calls
collected when the turn finishes. -/
structure SGenOutcome where
  text : String
  toolCalls : List SToolCall
deriving DecidableEq

structure SStep where
  index : Nat
  textEmitted : String
  toolCalls : List SToolCall
  toolResults : List SToolResult
deriving DecidableEq

structure SRunResult where
  finalText : String
  steps : List SStep
  truncated : Bool
deriving DecidableEq

def toolMessage (r : SToolResult) : SMessage :=
  ⟨.tool, r.payload, some r.callId⟩

/-- Modelled from the spec: the step loop with `fuel` steps remaining out
of the configured maximum. -/
def runSteps (backend : List SMessage → SGenOutcome)
    (exec : SToolCall → SToolResult) :
    Nat → List SMessage → Nat → List SStep → SRunResult
  | 0, _, _, acc => ⟨"", acc, false⟩
  | fuel + 1, hist, idx, acc =>
    let out := backend hist
    if out.toolCalls = [] then
      ⟨out.text, acc ++ [⟨idx, out.text, [], []⟩], false⟩
    else if fuel = 0 then
      ⟨out.text, acc ++ [⟨idx, out.text, out.toolCalls, []⟩], true⟩
    else
      let results := out.toolCalls.map exec
      runSteps backend exec fuel
        (hist ++ [⟨.assistant, out.text, none⟩] ++ results.map toolMessage)
        (idx + 1) (acc ++ [⟨idx, out.text, out.toolCalls, results⟩])

/-- Modelled from the spec: one `chat()` run of the orchestrated loop with
the configured maximum step count. -/
def chatRun (backend : List SMessage → SGenOutcome)
    (exec : SToolCall → SToolResult) (maxSteps : Nat)
    (messages : List SMessage) : SRunResult :=
  runSteps backend exec maxSteps messages 0 []

/-! ## Concrete fixtures used by the counterexamples and witnesses -/

/-- A deterministic stand-in for the `crypto.randomUUID()` supply. -/
def uuidSeq : Nat → String := fun n => "uuid-" ++ toString n

/-- First half of an NDJSON record cut mid-key. -/
def splitLineA : String := "\x7b\"message\":\x7b\"con"

/-- Second half of the same record. -/
def splitLineB : String := "tent\":\"hi\"\x7d\x7d"

/-- The same record delivered unsplit. -/
def wholeLine : String := "\x7b\"message\":\x7b\"content\":\"hi\"\x7d\x7d"

/-- An NDJSON record carrying a complete backend function call. -/
def fcLine : String :=
  "\x7b\"message\":\x7b\"function_call\":\x7b\"name\":\"analyze\",\"arguments\":\"\x7b\x7d\"\x7d\x7d\x7d"

/-- Recognizer for the completion variant (`type: 'tool-call'`). -/
def isCompletionPart : StreamPart → Bool
  | .toolCall _ _ _ => true
  | _ => false

/-- Erase the freshly drawn tool-call ids from an event. -/
def scrubId : StreamPart → StreamPart
  | .toolCallDelta _ n a => .toolCallDelta "" n a
  | .toolCall _ n a => .toolCall "" n a
  | p => p

/-- A deterministic stub backend that requests the same tool on every step. -/
def stubBackend : List SMessage → SGenOutcome :=
  fun _ => ⟨"calling analyze",
    [⟨"call-1", "analyze", "\x7b\"url\":\"https://example.com\"\x7d"⟩]⟩

/-- A total stub executor. -/
def stubExec : SToolCall → SToolResult :=
  fun c => ⟨c.id, true, "\x7b\"score\":80\x7d"⟩

/-! # Theorems -/

/-! ## C1 — the bounded step loop (spec-modelled) -/

theorem runSteps_length_le (backend : List SMessage → SGenOutcome)
    (exec : SToolCall → SToolResult) :
    ∀ (fuel : Nat) (hist : List SMessage) (idx : Nat) (acc : List SStep),
      (runSteps backend exec fuel hist idx acc).steps.length ≤ acc.length + fuel := by
  intro fuel
  induction fuel with
  | zero =>
    intro hist idx acc
    simp [runSteps]
  | succ fuel ih =>
    intro hist idx acc
    by_cases h1 : (backend hist).toolCalls = []
    · simp [runSteps, h1]
    · by_cases h2 : fuel = 0
      · subst h2
        simp [runSteps, h1]
      · simp only [runSteps, h1, h2, if_neg, if_false]
        refine le_trans (ih _ _ _) ?_
        simp only [List.length_append, List.length_cons, List.length_nil]
        omega

theorem runSteps_truncated_iff (backend : List SMessage → SGenOutcome)
    (exec : SToolCall → SToolResult) :
    ∀ (fuel : Nat) (hist : List SMessage) (idx : Nat) (acc : List SStep),
      (∀ s ∈ acc, s.toolCalls ≠ [] → s.toolResults ≠ []) →
      ((runSteps backend exec fuel hist idx acc).truncated = true ↔
        (runSteps backend exec fuel hist idx acc).steps.length = acc.length + fuel ∧
        ∃ s, (runSteps backend exec fuel hist idx acc).steps.getLast? = some s ∧
          s.toolCalls ≠ [] ∧ s.toolResults = []) := by
  intro fuel
  induction fuel with
  | zero =>
    intro hist idx acc hinv
    simp only [runSteps, Nat.add_zero]
    constructor
    · intro h
      cases h
    · rintro ⟨-, s, hlast, hne, hres⟩
      have hmem : s ∈ acc := by
        have hx : s ∈ acc.getLast? := by simp [Option.mem_def, hlast]
        rcases List.mem_getLast?_eq_getLast hx with ⟨hne2, rfl⟩
        exact List.getLast_mem hne2
      exact absurd hres (by simpa using hinv s hmem hne)
  | succ fuel ih =>
    intro hist idx acc hinv
    by_cases h1 : (backend hist).toolCalls = []
    · simp only [runSteps, h1, if_true, if_pos]
      constructor
      · intro h
        cases h
      · rintro ⟨hlen, s, hlast, hne, hres⟩
        rw [List.getLast?_concat] at hlast
        cases hlast
        exact (hne rfl).elim
    · by_cases h2 : fuel = 0
      · subst h2
        simp only [runSteps, h1, if_neg, if_false, if_pos, if_true]
        constructor
        · intro _
          refine ⟨by simp, ⟨idx, (backend hist).text, (backend hist).toolCalls, []⟩,
            ?_, h1, rfl⟩
          exact List.getLast?_concat _
        · intro _
          trivial
      · have hinv2 : ∀ s ∈ acc ++ [⟨idx, (backend hist).text, (backend hist).toolCalls,
            (backend hist).toolCalls.map exec⟩], s.toolCalls ≠ [] → s.toolResults ≠ [] := by
          intro s hs hne
          rcases List.mem_append.mp hs with hs2 | hs2
          · exact hinv s hs2 hne
          · rcases List.mem_singleton.mp hs2 with rfl
            simpa using h1
        have h3 := ih (hist ++ [⟨.assistant, (backend hist).text, none⟩] ++
            ((backend hist).toolCalls.map exec).map toolMessage) (idx + 1)
            (acc ++ [⟨idx, (backend hist).text, (backend hist).toolCalls,
              (backend hist).toolCalls.map exec⟩]) hinv2
        simp only [runSteps, h1, h2, if_neg, if_false]
        rw [h3]
        simp only [List.length_append, List.length_cons, List.length_nil]
        constructor
        · rintro ⟨hlen, hex⟩
          exact ⟨by omega, hex⟩
        · rintro ⟨hlen, hex⟩
          exact ⟨by omega, hex⟩

/-- Claim C1: for every `chat()` run with a configured maximum step count,
the number of generate-then-execute steps performed never exceeds that
maximum, and the run is truncated (`truncated = true`) precisely when the
maximum was reached while tool calls were still pending (the last step
carries unresolved tool calls).  `chatRun` is a total Lean function, so the
run returns a `RunResult` and raises no exception.  The loop is modelled
from the spec because every agent variant delegates it to the external `ai`
SDK. -/
theorem chatRun_step_limit :
    ∀ (backend : List SMessage → SGenOutcome) (exec : SToolCall → SToolResult)
      (maxSteps : Nat) (messages : List SMessage),
      (chatRun backend exec maxSteps messages).steps.length ≤ maxSteps ∧
      ((chatRun backend exec maxSteps messages).truncated = true ↔
        (chatRun backend exec maxSteps messages).steps.length = maxSteps ∧
        ∃ s, (chatRun backend exec maxSteps messages).steps.getLast? = some s ∧
          s.toolCalls ≠ [] ∧ s.toolResults = []) := by
  intro backend exec maxSteps messages
  constructor
  · simpa using runSteps_length_le backend exec maxSteps messages 0 []
  · simpa using runSteps_truncated_iff backend exec maxSteps messages 0 [] (by simp)

/-- Claim C1 witness (spec Scenario A): a stub backend that always requests
the same tool, run with `maxSteps = 3`, stops after exactly 3 steps with
`truncated = true`. -/
theorem chatRun_step_limit_witness :
    (chatRun stubBackend stubExec 3 []).steps.length = 3 ∧
    (chatRun stubBackend stubExec 3 []).truncated = true :=
  ⟨((chatRun_step_limit stubBackend stubExec 3 []).2.mp (by decide)).1, by decide⟩

/-! ## C2 — the tool handler rethrows -/

/-- Claim C2 counterexample: the `analyzeWebsite` handler does not capture
the scraper exception into a `ToolResult.error` — it streams a failure
notice and rethrows, so `execute` throws (modelled by `Except.error`). -/
theorem analyzeWebsiteExecute_throws_cex :
    (analyzeWebsiteExecute "https://example.com" 0 (.error "ECONNREFUSED")).2
      = .error "ECONNREFUSED" ∧
    (analyzeWebsiteExecute "https://example.com" 0 (.error "ECONNREFUSED")).1
      = ["\nAnalyzing website: https://example.com (depth 0)\n",
         "✗ Analysis failed: ECONNREFUSED\n"] :=
  ⟨rfl, rfl⟩

/-- Claim C2 (amended): `analyzeWebsite.execute` succeeds exactly when the
scraper does; on a handler exception it logs the failure and rethrows the
original error instead of returning a `ToolResult.error`, and the rethrown
error reaches the top-level `catch` of `runAgent`, which abandons the run
and returns the fixed apology string — the loop does not continue. -/
theorem analyzeWebsiteExecute_rethrows :
    ∀ (url : String) (depth : Nat) (scrape : Except String Json),
      ((analyzeWebsiteExecute url depth scrape).2.isOk = scrape.isOk) ∧
      (∀ e, scrape = .error e →
        (analyzeWebsiteExecute url depth scrape).2 = .error e ∧
        (analyzeWebsiteExecute url depth scrape).1
          = ["\nAnalyzing website: " ++ url ++ " (depth " ++ toString depth ++ ")\n",
             "✗ Analysis failed: " ++ e ++ "\n"] ∧
        runAgentResult ((analyzeWebsiteExecute url depth scrape).2)
          = "Sorry, there was an error processing your request.") := by
  intro url depth scrape
  cases scrape with
  | ok r =>
    refine ⟨rfl, ?_⟩
    intro e he
    cases he
  | error e =>
    refine ⟨rfl, ?_⟩
    intro e2 he
    cases he
    exact ⟨rfl, rfl, rfl⟩

/-- Claim C2 witness: a concrete DNS failure is rethrown by the handler and
surfaces as the apology string from `runAgent`. -/
theorem analyzeWebsiteExecute_rethrows_witness :
    (analyzeWebsiteExecute "https://nx.example" 2 (.error "getaddrinfo ENOTFOUND")).2
      = .error "getaddrinfo ENOTFOUND" ∧
    runAgentResult ((analyzeWebsiteExecute "https://nx.example" 2
      (.error "getaddrinfo ENOTFOUND")).2)
      = "Sorry, there was an error processing your request." := by
  have h := (analyzeWebsiteExecute_rethrows "https://nx.example" 2
    (.error "getaddrinfo ENOTFOUND")).2 "getaddrinfo ENOTFOUND" rfl
  exact ⟨h.1, h.2.2⟩

/-! ## C3 — which error propagates on a double failure -/

/-- Claim C3 counterexample: when the primary path and the fallback both
fail, the caller receives the fallback error, not the original
primary-path error — the `catch` block consumed the original error and the
fallback exception escapes it. -/
theorem chat_fallback_error_cex :
    (chatWithFallback (R := String) (.error "primary: network timeout")
      (.error "fallback: model refused")).2 = .error "fallback: model refused" ∧
    (chatWithFallback (R := String) (.error "primary: network timeout")
      (.error "fallback: model refused")).2 ≠ .error "primary: network timeout" := by
  refine ⟨rfl, ?_⟩
  intro h
  have h2 : (Except.error "fallback: model refused" : Except String String)
      = Except.error "primary: network timeout" := h
  injection h2 with h3
  exact absurd h3 (by decide)

/-- Claim C3 (amended): when both paths fail, the error raised by the
fallback attempt is what propagates to the caller; the original
primary-path error is only logged by `console.error` and lost. -/
theorem chat_fallback_error_propagation :
    ∀ (R : Type) (e1 e2 : String),
      (chatWithFallback (R := R) (.error e1) (.error e2)).2 = .error e2 ∧
      (chatWithFallback (R := R) (.error e1) (.error e2)).1
        = [primaryCall, reducedCall] := by
  intro R e1 e2
  exact ⟨rfl, rfl⟩

/-! ## C4 — the fallback runs at most once -/

/-- Claim C4: per `chat()` invocation the reduced-capability fallback runs
at most once and never recurses: the call trace starts with the primary
tool-enabled call; on primary success no further call is made, and on a
primary exception exactly one more `generateText` call follows, with tools
disabled and streaming disabled, after which the trace ends. -/
theorem chat_fallback_at_most_once :
    ∀ (R : Type) (primary fallback : Except String R),
      ((chatWithFallback primary fallback).1.filter
        (fun c => !c.toolsEnabled)).length ≤ 1 ∧
      ((chatWithFallback primary fallback).1.head? = some primaryCall) ∧
      (∀ r, primary = .ok r →
        (chatWithFallback primary fallback).1 = [primaryCall]) ∧
      (∀ e, primary = .error e →
        (chatWithFallback primary fallback).1 = [primaryCall, reducedCall] ∧
        reducedCall.toolsEnabled = false ∧ reducedCall.streaming = false) := by
  intro R p f
  cases p with
  | ok r =>
    refine ⟨by simp [chatWithFallback, primaryCall], rfl, ?_, ?_⟩
    · intro r2 _
      rfl
    · intro e he
      cases he
  | error e =>
    cases f with
    | ok r =>
      refine ⟨by simp [chatWithFallback, primaryCall, reducedCall], rfl, ?_, ?_⟩
      · intro r2 hr
        cases hr
      · intro e2 _
        exact ⟨rfl, rfl, rfl⟩
    | error e2 =>
      refine ⟨by simp [chatWithFallback, primaryCall, reducedCall], rfl, ?_, ?_⟩
      · intro r2 hr
        cases hr
      · intro e3 _
        exact ⟨rfl, rfl, rfl⟩

/-- Claim C4 witness (spec Scenario E): the primary path fails once, the
reduced-capability call runs exactly once and ends the trace. -/
theorem chat_fallback_at_most_once_witness :
    (chatWithFallback (R := String) (.error "tool path failed")
      (.ok "plain text answer")).1 = [primaryCall, reducedCall] :=
  ((chat_fallback_at_most_once String (.error "tool path failed")
    (.ok "plain text answer")).2.2.2 "tool path failed" rfl).1

/-! ## C5 — no buffering across chunk boundaries -/

/-- Claim C5 counterexample: an NDJSON record split across two chunks
yields no event at all, while the unsplit line yields its single
`text-delta` — the transform keeps no line buffer, both fragments fail
`JSON.parse` and are dropped by the chunk-level `catch`. -/
theorem transform_split_record_cex :
    transformEvents uuidSeq [splitLineA, splitLineB] = [] ∧
    transformEvents uuidSeq [wholeLine] = [StreamPart.textDelta (Json.str "hi")] ∧
    (transformEvents uuidSeq [splitLineA, splitLineB]).length
      ≠ (transformEvents uuidSeq [wholeLine]).length :=
  ⟨rfl, rfl, by decide⟩

theorem processLines_events_nil (uuid : Nat → String) :
    ∀ (ls : List (List Char)) (k : Nat),
      (∀ l ∈ ls, (jsonParseChars l).isNone = true) →
      (processLines uuid k ls).1 = [] := by
  intro ls k h
  cases ls with
  | nil => rfl
  | cons l ls =>
    have hl : jsonParseChars l = none :=
      Option.isNone_iff_eq_none.mp (h l (List.mem_cons_self l ls))
    simp [processLines, hl]

/-- Claim C5 (amended): the transform holds no buffer across chunk
boundaries — chunks are parsed independently, so whenever every line of
every chunk fails `JSON.parse` (as both halves of a split record do), the
transform emits no event at all instead of reassembling the record. -/
theorem transform_no_buffering :
    ∀ (uuid : Nat → String) (k : Nat) (chunks : List String),
      (∀ c ∈ chunks, ∀ l ∈ chunkLines c, (jsonParseChars l).isNone = true) →
      (transformAll uuid k chunks).1 = [] := by
  intro uuid k chunks
  induction chunks generalizing k with
  | nil => intro _; rfl
  | cons c cs ih =>
    intro h
    have h1 : (processChunk uuid k c).1 = [] :=
      processLines_events_nil uuid (chunkLines c) k
        (h c (List.mem_cons_self c cs))
    simp only [transformAll, h1, List.nil_append]
    exact ih _ (fun c2 hc2 => h c2 (List.mem_cons_of_mem c hc2))

/-- Claim C5 witness: both fragments of the split record fail to parse, so
the whole input produces zero events. -/
theorem transform_no_buffering_witness :
    (transformAll uuidSeq 0 [splitLineA, splitLineB]).1 = [] :=
  transform_no_buffering uuidSeq 0 [splitLineA, splitLineB] (by decide)

/-! ## C6 — bad lines are swallowed, not surfaced -/

/-- Claim C6 counterexample: on a line that can never become valid JSON the
transform completes normally — it returns a value (no exception, no
`ProtocolError` anywhere in the code), emits no event, and merely counts
one caught-and-logged chunk error. -/
theorem transform_protocol_error_cex :
    transformAll uuidSeq 0 ["this line never becomes valid JSON"]
      = ([], 0, 1) := rfl

theorem processLines_caught_iff (uuid : Nat → String) :
    ∀ (ls : List (List Char)) (k : Nat),
      (processLines uuid k ls).2.2 = true ↔
        ∃ l ∈ ls, (jsonParseChars l).isNone = true := by
  intro ls
  induction ls with
  | nil =>
    intro k
    simp [processLines]
  | cons l ls ih =>
    intro k
    cases hl : jsonParseChars l with
    | none =>
      simp [processLines, hl]
    | some j =>
      simp only [processLines, hl, List.mem_cons]
      rw [ih]
      constructor
      · rintro ⟨l2, hm, hp⟩
        exact ⟨l2, Or.inr hm, hp⟩
      · rintro ⟨l2, hm, hp⟩
        cases hm with
        | inl he =>
          subst he
          rw [hl] at hp
          cases hp
        | inr hm => exact ⟨l2, hm, hp⟩

/-- Claim C6 (amended): a chunk whose processing hits an unparseable line
triggers the chunk-level `catch` — the error is logged and the line (plus
the rest of its chunk) is silently dropped; the transform never fails with
a `ProtocolError`, neither mid-stream nor at end-of-stream. -/
theorem transform_swallow_bad_lines :
    ∀ (uuid : Nat → String) (k : Nat) (chunk : String),
      ((processChunk uuid k chunk).2.2 = true ↔
        ∃ l ∈ chunkLines chunk, (jsonParseChars l).isNone = true) := by
  intro uuid k chunk
  exact processLines_caught_iff uuid (chunkLines chunk) k

/-- Claim C6 witness: the never-valid line makes the `catch` fire (and the
transform still completes with a value). -/
theorem transform_swallow_bad_lines_witness :
    (processChunk uuidSeq 0 "this line never becomes valid JSON").2.2 = true :=
  (transform_swallow_bad_lines uuidSeq 0 "this line never becomes valid JSON").mpr
    (by decide)

/-! ## C7 — no completion event, arguments arrive whole and unvalidated -/

/-- Claim C7 counterexample: a complete backend function call produces a
single `tool-call-delta` carrying the entire arguments string, and the
event stream contains no `tool-call` completion part at all — there is no
moment at which a `ToolCallComplete` fires, and no schema validation
happens in the transform. -/
theorem transform_no_completion_cex :
    transformEvents uuidSeq [fcLine]
      = [StreamPart.toolCallDelta "uuid-0" (some (Json.str "analyze"))
          (some (Json.str "\x7b\x7d"))] ∧
    (transformEvents uuidSeq [fcLine]).filter isCompletionPart = [] :=
  ⟨rfl, rfl⟩

theorem lineEvents_no_completion (uuid : Nat → String) (k : Nat) (j : Json) :
    ∀ p ∈ (lineEvents uuid k j).1, isCompletionPart p = false := by
  intro p hp
  simp only [lineEvents] at hp
  repeat' split at hp
  all_goals simp only [List.mem_append, List.mem_singleton, List.not_mem_nil,
    List.mem_cons, or_false, false_or] at hp
  all_goals rcases hp with rfl | rfl <;> rfl

theorem processLines_no_completion (uuid : Nat → String) :
    ∀ (ls : List (List Char)) (k : Nat),
      ∀ p ∈ (processLines uuid k ls).1, isCompletionPart p = false := by
  intro ls
  induction ls with
  | nil =>
    intro k p hp
    simp [processLines] at hp
  | cons l ls ih =>
    intro k p hp
    cases hl : jsonParseChars l with
    | none =>
      simp [processLines, hl] at hp
    | some j =>
      simp only [processLines, hl, List.mem_append] at hp
      cases hp with
      | inl h => exact lineEvents_no_completion uuid k j p h
      | inr h => exact ih _ p h

/-- Claim C7 (amended): each backend function call is forwarded as one
`tool-call-delta` whose fragment is the complete arguments string, and the
transform never emits a completion (`tool-call`) part for any input —
argument assembly, completion signalling and schema validation are left
entirely to the consuming SDK, not performed by this repository. -/
theorem transform_never_completes :
    ∀ (uuid : Nat → String) (k : Nat) (chunks : List String),
      ∀ p ∈ (transformAll uuid k chunks).1, isCompletionPart p = false := by
  intro uuid k chunks
  induction chunks generalizing k with
  | nil =>
    intro p hp
    simp [transformAll] at hp
  | cons c cs ih =>
    intro p hp
    simp only [transformAll, List.mem_append] at hp
    cases hp with
    | inl h => exact processLines_no_completion uuid (chunkLines c) k p h
    | inr h => exact ih _ p h

/-- Claim C7 witness: on the concrete function-call record, every emitted
event fails `isCompletionPart`. -/
theorem transform_never_completes_witness :
    (transformEvents uuidSeq [fcLine]).all (fun p => !isCompletionPart p) = true := by
  apply List.all_eq_true.mpr
  intro p hp
  simpa using transform_never_completes uuidSeq 0 [fcLine] p hp

/-! ## C8 — determinism only up to the fresh UUIDs -/

/-- Claim C8 counterexample: the transform draws a fresh
`crypto.randomUUID()` for every tool call, so two replays of the identical
backend stream whose UUID draws differ produce different event sequences —
the tool-call identities are not reproduced. -/
theorem transform_uuid_nondeterminism_cex :
    transformEvents (fun _ => "0a1b2c3d-0000-4000-8000-000000000001") [fcLine]
      = [StreamPart.toolCallDelta "0a1b2c3d-0000-4000-8000-000000000001"
          (some (Json.str "analyze")) (some (Json.str "\x7b\x7d"))] ∧
    transformEvents (fun _ => "9f8e7d6c-0000-4000-8000-000000000002") [fcLine]
      = [StreamPart.toolCallDelta "9f8e7d6c-0000-4000-8000-000000000002"
          (some (Json.str "analyze")) (some (Json.str "\x7b\x7d"))] ∧
    transformEvents (fun _ => "0a1b2c3d-0000-4000-8000-000000000001") [fcLine]
      ≠ transformEvents (fun _ => "9f8e7d6c-0000-4000-8000-000000000002") [fcLine] := by
  refine ⟨rfl, rfl, ?_⟩
  intro h
  have h2 : "0a1b2c3d-0000-4000-8000-000000000001"
      = "9f8e7d6c-0000-4000-8000-000000000002" :=
    congrArg (fun l => match l with
      | StreamPart.toolCallDelta i _ _ :: _ => i
      | _ => "") h
  exact absurd h2 (by decide)

theorem lineEvents_scrub (u1 u2 : Nat → String) (k1 k2 : Nat) (j : Json) :
    (lineEvents u1 k1 j).1.map scrubId = (lineEvents u2 k2 j).1.map scrubId := by
  rcases hm : j.getField "message" with _ | m
  · simp [lineEvents, hm]
  · rcases hf : m.getField "function_call" with _ | fc
    · simp [lineEvents, hm, hf]
    · rcases hc : m.getField "content" with _ | v
      · by_cases ht : fc.truthy <;> simp [lineEvents, hm, hf, hc, ht, scrubId]
      · by_cases ht : fc.truthy <;> by_cases hv : v.truthy <;>
          simp [lineEvents, hm, hf, hc, ht, hv, scrubId]

theorem processLines_scrub (u1 u2 : Nat → String) :
    ∀ (ls : List (List Char)) (k1 k2 : Nat),
      (processLines u1 k1 ls).1.map scrubId
        = (processLines u2 k2 ls).1.map scrubId ∧
      (processLines u1 k1 ls).2.2 = (processLines u2 k2 ls).2.2 := by
  intro ls
  induction ls with
  | nil =>
    intro k1 k2
    exact ⟨rfl, rfl⟩
  | cons l ls ih =>
    intro k1 k2
    cases hl : jsonParseChars l with
    | none =>
      simp [processLines, hl]
    | some j =>
      simp only [processLines, hl, List.map_append]
      constructor
      · rw [lineEvents_scrub u1 u2 k1 k2 j, (ih _ _).1]
      · exact (ih _ _).2

/-- Claim C8 (amended): given the same backend chunks, two runs of the
transform agree on everything except the tool-call ids — the event
sequences are equal after scrubbing the ids, and the caught-error behavior
is identical; with a fixed UUID supply the transform is a pure function of
the backend stream, so the UUID draw is its only nondeterminism. -/
theorem transform_deterministic_up_to_ids :
    ∀ (u1 u2 : Nat → String) (chunks : List String) (k1 k2 : Nat),
      (transformAll u1 k1 chunks).1.map scrubId
        = (transformAll u2 k2 chunks).1.map scrubId ∧
      (transformAll u1 k1 chunks).2.2 = (transformAll u2 k2 chunks).2.2 := by
  intro u1 u2 chunks
  induction chunks with
  | nil =>
    intro k1 k2
    exact ⟨rfl, rfl⟩
  | cons c cs ih =>
    intro k1 k2
    simp only [transformAll, processChunk, List.map_append]
    have h1 := (processLines_scrub u1 u2 (chunkLines c) k1 k2).1
    have h2 := (processLines_scrub u1 u2 (chunkLines c) k1 k2).2
    have h3 := ih (processLines u1 k1 (chunkLines c)).2.1
      (processLines u2 k2 (chunkLines c)).2.1
    constructor
    · rw [h1, h3.1]
    · simp only [h2, h3.2]

/-! ## C9 — the message filter -/

theorem msgKept_iff (m : CoreMsg) :
    msgKept m = true ↔ ∃ s, m.content = .str s ∧ jsTrim s ≠ "" := by
  cases hc : m.content with
  | undef => simp [msgKept, hc]
  | parts => simp [msgKept, hc]
  | str s =>
    simp only [msgKept, hc, Bool.and_eq_true, ne_eq, bne_iff_ne]
    constructor
    · intro h
      exact ⟨s, rfl, h.2⟩
    · rintro ⟨t, ht, htr⟩
      cases ht
      refine ⟨?_, htr⟩
      intro he
      subst he
      exact htr (by decide)

/-- Claim C9: `chat()` drops exactly the messages whose content is absent,
not a string, or trims to the empty string; the surviving messages are
forwarded unchanged and in their original relative order (a sublist), after
the injected system message; in particular, when every input message is
empty in this sense the backend receives only the system message. -/
theorem chat_filters_empty_messages :
    ∀ messages : List CoreMsg,
      (filteredMessages messages).Sublist messages ∧
      (∀ m, msgKept m = true ↔ ∃ s, m.content = .str s ∧ jsTrim s ≠ "") ∧
      backendMessages messages = seoSystemMsg :: messages.filter msgKept ∧
      ((∀ m ∈ messages, msgKept m = false) →
        backendMessages messages = [seoSystemMsg]) := by
  intro messages
  refine ⟨List.filter_sublist _, msgKept_iff, rfl, ?_⟩
  intro h
  have hnil : messages.filter msgKept = [] := by
    apply List.filter_eq_nil_iff.mpr
    intro m hm
    simp [h m hm]
  simp [backendMessages, filteredMessages, hnil]

/-- Claim C9 witness: a whitespace-only message, a message without string
content and a structured-parts message are all dropped, leaving only the
injected system message. -/
theorem chat_filters_empty_messages_witness :
    backendMessages
      [⟨"user", .str "   "⟩, ⟨"user", .undef⟩, ⟨"assistant", .parts⟩]
      = [seoSystemMsg] :=
  (chat_filters_empty_messages _).2.2.2 (by decide)

/-! ## C10 — model lookup -/

/-- Claim C10: the declared model ids are pairwise distinct, `getModel`
returns exactly the unique entry whose id equals the argument and throws
`Model ... not found` precisely when no entry matches; consequently
constructing an `SEOAgent` succeeds exactly for known model ids — with an
unknown id the constructor throws before any backend or fallback call can
be made (the constructor performs no backend request). -/
theorem getModel_lookup :
    ∀ modelId : String,
      (models.map (fun m => m.id)).Nodup ∧
      (∀ m : AIModel, getModel modelId = .ok m ↔ m ∈ models ∧ m.id = modelId) ∧
      (getModel modelId = .error ("Model " ++ modelId ++ " not found") ↔
        ∀ m ∈ models, m.id ≠ modelId) ∧
      (∀ chatId userId,
        (∃ a, mkSEOAgent ⟨modelId, chatId, userId⟩ = .ok a) ↔
          ∃ m ∈ models, m.id = modelId) := by
  intro modelId
  have hinj : ∀ a ∈ models, ∀ b ∈ models, a.id = b.id → a = b := by decide
  have hok : ∀ m : AIModel, getModel modelId = .ok m ↔ m ∈ models ∧ m.id = modelId := by
    intro m
    unfold getModel
    cases hf : models.find? (fun m => m.id = modelId) with
    | none =>
      simp only [reduceCtorEq, false_iff, not_and]
      intro hm hid
      have hnone := List.find?_eq_none.mp hf m hm
      simp [hid] at hnone
    | some m0 =>
      have h1 := List.find?_some hf
      simp only [decide_eq_true_eq] at h1
      have hm0 : m0 ∈ models := List.mem_of_find?_eq_some hf
      constructor
      · intro h
        cases h
        exact ⟨hm0, h1⟩
      · rintro ⟨hm, hid⟩
        have : m0 = m := hinj m0 hm0 m hm (h1.trans hid.symm)
        rw [this]
  refine ⟨by decide, hok, ?_, ?_⟩
  · unfold getModel
    cases hf : models.find? (fun m => m.id = modelId) with
    | none =>
      simp only [true_iff]
      intro m hm
      have hnone := List.find?_eq_none.mp hf m hm
      simpa using hnone
    | some m0 =>
      have h1 := List.find?_some hf
      simp only [decide_eq_true_eq] at h1
      have hm0 : m0 ∈ models := List.mem_of_find?_eq_some hf
      simp only [reduceCtorEq, false_iff, not_forall]
      exact ⟨m0, hm0, by simp [h1]⟩
  · intro chatId userId
    cases hg : getModel modelId with
    | ok m =>
      have hmk : mkSEOAgent ⟨modelId, chatId, userId⟩ = .ok ⟨m, chatId, userId⟩ := by
        unfold mkSEOAgent
        rw [hg]
      constructor
      · intro _
        exact ⟨m, ((hok m).mp hg).1, ((hok m).mp hg).2⟩
      · intro _
        exact ⟨⟨m, chatId, userId⟩, hmk⟩
    | error e =>
      have hmk : mkSEOAgent ⟨modelId, chatId, userId⟩ = .error e := by
        unfold mkSEOAgent
        rw [hg]
      constructor
      · rintro ⟨a, ha⟩
        rw [hmk] at ha
        cases ha
      · rintro ⟨m, hm, hid⟩
        have h2 := (hok m).mpr ⟨hm, hid⟩
        rw [hg] at h2
        cases h2

/-- Claim C10 witness: a known id constructs an agent, an unknown id fails
construction. -/
theorem getModel_lookup_witness :
    (∃ a, mkSEOAgent ⟨"mistral", "chat-1", "user-1"⟩ = .ok a) ∧
    ¬ ∃ a, mkSEOAgent ⟨"llama2-uncensored", "chat-1", "user-1"⟩ = .ok a := by
  constructor
  · exact ((getModel_lookup "mistral").2.2.2 "chat-1" "user-1").mpr (by decide)
  · intro h
    exact absurd (((getModel_lookup "llama2-uncensored").2.2.2 "chat-1" "user-1").mp h)
      (by decide)

end AIChatbot
